import Mathlib

/-!
Shallow embedding of the apollo-spreadsheet edit-session coordinator.

The definitions below are translated from the repository sources:
`src/src/gridWrapper/gridWrapperProps.ts` (whose third concatenated part is
the API-driven `useEditorManager` variant, the one the specification
follows), `src/src/editorManager/useEditorManager.tsx` (the props-driven
variant, which carries the deferred `keyPress` navigation scheduling), and
`src/unnamed/part_000` (keyboard utilities, `isIndexOutOfBoundaries`).
-/

/-- JavaScript values flowing through cells and editors, restricted to the
types the coordinator manipulates: `undefined`, strings and integer
numbers. -/
inductive Value where
  | undef : Value
  | str : String → Value
  | num : Int → Value
deriving DecidableEq

/-- JavaScript `ToString` on the value domain, as used by the `+`
concatenation in `beginEditing`. -/
def Value.jsToString : Value → String
  | .undef => "undefined"
  | .str s => s
  | .num n => toString n

/-- JavaScript truthiness on the value domain: `undefined`, the empty string
and `0` are falsy, everything else is truthy. -/
def Value.jsTruthy : Value → Bool
  | .undef => false
  | .str s => decide (s ≠ "")
  | .num n => decide (n ≠ 0)

/-- Whitespace stripped by JavaScript `ToNumber`. -/
def jsWhitespace (c : Char) : Bool :=
  c = ' ' || c = '\t' || c = '\n' || c = '\r'

/-- Numeric value of a decimal digit character. -/
def digitVal (c : Char) : Option Nat :=
  if 48 ≤ c.toNat && c.toNat ≤ 57 then some (c.toNat - 48) else none

/-- Accumulating decimal reading of a digit list. -/
def parseDigitsAux : List Char → Nat → Option Nat
  | [], acc => some acc
  | c :: cs, acc =>
    match digitVal c with
    | some d => parseDigitsAux cs (acc * 10 + d)
    | none => none

/-- Decimal reading of a non-empty digit list. -/
def parseNatDigits : List Char → Option Nat
  | [] => none
  | cs => parseDigitsAux cs 0

/-- JavaScript `ToNumber` on strings, restricted to the integer fragment of
the embedding: a blank string converts to `0`, optionally signed decimal
integer literals convert to their value, and every other string is `NaN`,
modelled as `none` (and `NaN` compares unequal to everything). -/
def jsStrToNum (s : String) : Option Int :=
  match ((s.toList.dropWhile jsWhitespace).reverse.dropWhile jsWhitespace).reverse with
  | [] => some 0
  | '-' :: rest => (parseNatDigits rest).map (fun n => -(n : Int))
  | '+' :: rest => (parseNatDigits rest).map (fun n => (n : Int))
  | cs => (parseNatDigits cs).map (fun n => (n : Int))

/-- JavaScript loose equality `==` on the value domain, the comparison the
source uses in `newValue != editorState.initialValue`. -/
def jsLooseEq : Value → Value → Bool
  | .undef, .undef => true
  | .str a, .str b => decide (a = b)
  | .num a, .num b => decide (a = b)
  | .str s, .num n =>
    match jsStrToNum s with
    | some m => decide (m = n)
    | none => false
  | .num n, .str s =>
    match jsStrToNum s with
    | some m => decide (m = n)
    | none => false
  | _, _ => false

/-- JavaScript strict equality `===` on the value domain: same type and same
payload, which on this domain is structural equality. -/
def jsStrictEq (a b : Value) : Bool := decide (a = b)

/-- Cell coordinates; `-1` denotes no selection, so indices are integers. -/
structure NavigationCoords where
  rowIndex : Int
  colIndex : Int
deriving DecidableEq

/-- a row is an opaque record read through column accessor names; a missing
key reads as `undefined`. -/
def Row : Type := String → Value

/-- Column cell types used by the editor selection in `getEditor`. -/
inductive ColumnCellType where
  | Text : ColumnCellType
  | Numeric : ColumnCellType
  | Calendar : ColumnCellType
deriving DecidableEq

/-- the `readOnly` column field: absent, a boolean, or a predicate of the
coordinate. -/
inductive ReadOnlyCfg where
  | undef : ReadOnlyCfg
  | flag : Bool → ReadOnlyCfg
  | pred : (NavigationCoords → Bool) → ReadOnlyCfg

/-- Resolution of the `readOnly` field at a coordinate, mirroring the
truthiness test followed by the `typeof function` check in `beginEditing`:
an absent field and `false` are falsy, a boolean is read directly, a
function is applied to the coordinate. -/
def resolveReadOnly : ReadOnlyCfg → NavigationCoords → Bool
  | .undef, _ => false
  | .flag b, _ => b
  | .pred f, c => f c

/-- Props handed to a built-in editor component. `anchorRef` is modelled as
a numeric element id; the `stopEditing` callback of the source props is the
manager function itself and is not part of the data. -/
structure EditorProps where
  anchorRef : Nat
  value : Value
  maxLength : Nat
  validatorHook : Option (Value → Bool)

/-- the editor node stored in the session: one of the built-in components
instantiated with its props, or the opaque result of a column editor
factory. -/
inductive EditorNode where
  | textEditor : EditorProps → EditorNode
  | numericEditor : EditorProps → EditorNode
  | calendarEditor : EditorProps → EditorNode
  | custom : Nat → EditorNode

/-- Column descriptor (`Header`) fields read by the editor manager. The
editor factory in the source also receives the column itself and an
`onRefMount` callback; the column argument is omitted here because a
structure cannot mention its own type, and `onRefMount` is a manager
callback, so the factory is modelled as a function of the row. -/
structure Header where
  id : String
  accessor : String
  type : ColumnCellType
  readOnly : ReadOnlyCfg
  validatorHook : Option (Value → Bool)
  editor : Option (Row → EditorNode)
  maxLength : Option Nat

/-- Observable events of the API-driven variant: the `onCellChange`
callback, and the `CELL_BEGIN_EDITING` and `CELL_STOP_EDITING` dispatches. -/
inductive GridEvent where
  | cellChange : NavigationCoords → Value → Value → GridEvent
  | beginEditingNotif : NavigationCoords → GridEvent
  | stopEditingNotif : NavigationCoords → GridEvent
deriving DecidableEq

/-- the `IEditorState` record held in `state.current`. -/
structure IEditorState where
  node : EditorNode
  rowIndex : Int
  colIndex : Int
  initialValue : Value
  targetElement : Nat
  validatorHook : Option (Value → Bool)
  isPopup : Bool

/-- Mutable cells of the hook: `state.current`, `editorRef.current` (modelled
by the value its `getValue` would return) and the `editorNode` React state. -/
structure ManagerState where
  state : Option IEditorState
  editorRef : Option Value
  editorNode : Option EditorNode

/-- the optional `save` field of `StopEditingParams`; in the source an absent
`save` on a provided params object is falsy. -/
structure StopEditingParams where
  save : Option Bool

/-- Truthiness of `params === undefined || params.save`. -/
def doSaveOf : Option StopEditingParams → Bool
  | none => true
  | some p => p.save.getD false

/-- Array indexing `rows[i]` with JavaScript out-of-range reads yielding
`undefined`. -/
def rowAt (rows : List Row) (i : Int) : Option Row :=
  if i < 0 then none else rows.get? i.toNat

/-- the `editorState.validatorHook?.(newValue) ?? true` expression. -/
def validatorPasses (hook : Option (Value → Bool)) (v : Value) : Bool :=
  match hook with
  | some f => f v
  | none => true

/-- Manager state after `editorRef.current = null; state.current = null;
setEditorNode(null)`. -/
def clearedManager : ManagerState := ⟨none, none, none⟩

/-- `stopEditing` of the API-driven variant (gridWrapperProps.ts, third
part): on an idle manager it is a no-op; otherwise, with save requested, an
undefined candidate or a failing validator discards silently, and a
candidate loosely different from `initialValue` emits one cell change; every
exit path of an active session dispatches `CELL_STOP_EDITING`. -/
def apiStopEditing (s : ManagerState) (params : Option StopEditingParams) :
    ManagerState × List GridEvent :=
  match s.state with
  | none => (s, [])
  | some st =>
    let stopNotif := GridEvent.stopEditingNotif ⟨st.rowIndex, st.colIndex⟩
    if doSaveOf params then
      let newValue := s.editorRef.getD Value.undef
      if newValue = Value.undef then (clearedManager, [stopNotif])
      else if validatorPasses st.validatorHook newValue then
        if jsLooseEq newValue st.initialValue then (clearedManager, [stopNotif])
        else
          (clearedManager,
            [GridEvent.cellChange ⟨st.rowIndex, st.colIndex⟩ st.initialValue newValue,
              stopNotif])
      else (clearedManager, [stopNotif])
    else (clearedManager, [stopNotif])

/-- Recogniser for cell-change events. -/
def isCellChange : GridEvent → Bool
  | .cellChange _ _ _ => true
  | _ => false

/-- Number of cell-change events in an emission list. -/
def countCellChange (l : List GridEvent) : Nat := l.countP isCellChange

/-- Modelled from the spec: the sentinel id of the row-selection
pseudo-column. Its defining module (`rowSelection/useRowSelection`) is not
under src; `beginEditing` only compares the column id against this constant,
so its concrete value is immaterial. -/
def ROW_SELECTION_HEADER_ID : String := "row-selection-header"

/-- the reentry guard `state.current?.rowIndex === coords.rowIndex &&
state.current?.colIndex === coords.colIndex`; with an idle manager the
optional chains yield `undefined`, which is never strictly equal to a
number. -/
def sameCoordsGuard (st : Option IEditorState) (c : NavigationCoords) : Bool :=
  match st with
  | some e => decide (e.rowIndex = c.rowIndex) && decide (e.colIndex = c.colIndex)
  | none => false

/-- Truthiness of the optional string `defaultKey`. -/
def defaultKeyTruthy : Option String → Bool
  | some k => decide (k ≠ "")
  | none => false

/-- the buffered candidate value computed by `beginEditing`:
`row[column.accessor] ? (defaultKey ? row[column.accessor] + defaultKey :
row[column.accessor]) : (defaultKey ? defaultKey : "")`. -/
def bufferedValue (cur : Value) (defaultKey : Option String) : Value :=
  if cur.jsTruthy then
    if defaultKeyTruthy defaultKey then
      Value.str (cur.jsToString ++ defaultKey.getD "")
    else cur
  else
    if defaultKeyTruthy defaultKey then Value.str (defaultKey.getD "")
    else Value.str ""

/-- JavaScript nullish coalescing `v ?? d` on the value domain. -/
def jsNullish (v : Value) (d : Value) : Value :=
  match v with
  | .undef => d
  | v => v

/-- the `editorProps` object built by `beginEditing`:
`{ anchorRef, value, maxLength: column.maxLength ?? 500, stopEditing,
validatorHook: column.validatorHook }`. -/
def mkEditorProps (target : Nat) (v : Value) (col : Header) : EditorProps :=
  ⟨target, v, col.maxLength.getD 500, col.validatorHook⟩

/-- `getEditor` (identical in both variants): a column-supplied editor
factory takes precedence and its result is returned directly; otherwise the
column type selects the Calendar or Numeric component, with the Text
component as the default, instantiated with the props. -/
def getEditor (row : Row) (column : Header) (props : EditorProps) : EditorNode :=
  match column.editor with
  | some factory => factory row
  | none =>
    match column.type with
    | ColumnCellType.Calendar => EditorNode.calendarEditor props
    | ColumnCellType.Numeric => EditorNode.numericEditor props
    | ColumnCellType.Text => EditorNode.textEditor props

/-- Arguments of `beginEditing`. -/
structure BeginEditingParams where
  coords : NavigationCoords
  targetElement : Nat
  defaultKey : Option String

/-- `beginEditing` of the API-driven variant: the same-coordinate reentry
guard, the column lookup, the row-selection sentinel check, the readOnly
resolution and the row lookup all reject silently with no state change;
otherwise the session is created with the buffered value, the nullish
initial value, the selected editor, and `CELL_BEGIN_EDITING` is
dispatched. -/
def apiBeginEditing (getColumnAt : Int → Option Header) (rows : List Row)
    (s : ManagerState) (p : BeginEditingParams) : ManagerState × List GridEvent :=
  if sameCoordsGuard s.state p.coords then (s, [])
  else
    match getColumnAt p.coords.colIndex with
    | none => (s, [])
    | some column =>
      if column.id = ROW_SELECTION_HEADER_ID then (s, [])
      else if resolveReadOnly column.readOnly p.coords then (s, [])
      else
        match rowAt rows p.coords.rowIndex with
        | none => (s, [])
        | some row =>
          let cur := row column.accessor
          let value := bufferedValue cur p.defaultKey
          let initialValue := jsNullish cur (Value.str "")
          let props := mkEditorProps p.targetElement value column
          let editor := getEditor row column props
          let st : IEditorState :=
            ⟨editor, p.coords.rowIndex, p.coords.colIndex, initialValue,
              p.targetElement, column.validatorHook,
              column.editor.isSome || decide (column.type = ColumnCellType.Calendar)⟩
          ({ s with state := some st, editorNode := some editor },
            [GridEvent.beginEditingNotif p.coords])

/-- the data-change reconciler effect of the API-driven variant: with an
active editor node and session, it re-resolves the row and the column; if
either is absent, or the accessor reads `undefined` on the row, it forces
`stopEditing({ save: false })`; otherwise nothing happens. -/
def reconcileEffect (getColumnAt : Int → Option Header) (rows : List Row)
    (s : ManagerState) : ManagerState × List GridEvent :=
  match s.editorNode, s.state with
  | some _, some st =>
    (match rowAt rows st.rowIndex, getColumnAt st.colIndex with
     | some target, some column =>
       if target column.accessor = Value.undef then
         apiStopEditing s (some ⟨some false⟩)
       else (s, [])
     | _, _ => apiStopEditing s (some ⟨some false⟩))
  | _, _ => (s, [])

/-- Projection of the props a built-in editor node was instantiated with. -/
def editorNodeProps : EditorNode → Option EditorProps
  | .textEditor p => some p
  | .numericEditor p => some p
  | .calendarEditor p => some p
  | .custom _ => none

/-- the buffered value of the active session, read back from the props of
its built-in editor node. -/
def sessionBufferedValue (s : ManagerState) : Option Value :=
  match s.state with
  | some st => (editorNodeProps st.node).map EditorProps.value
  | none => none

/-- Returns whether a given row coordinate is out of the given limit
(src/unnamed/part_000, `isIndexOutOfBoundaries`). -/
def isIndexOutOfBoundaries (index lo hi : Int) : Bool :=
  decide (index < lo) || decide (index > hi)

/-- Modelled from the spec: the boundary rectangle of the Navigation State. -/
structure NavBounds where
  maxRow : Int
  maxCol : Int

/-- Modelled from the spec: `moveTo` of the Navigation State (the
`useNavigation` module is not under src; only the source bounds test
`isIndexOutOfBoundaries` is). A target outside `[0, maxRow] x [0, maxCol]`
is rejected with the state unchanged; otherwise the target is resolved
through the merge resolver and the state becomes the anchor. -/
def moveTo (resolveAnchor : NavigationCoords → NavigationCoords)
    (s : NavigationCoords) (target : NavigationCoords) (b : NavBounds) :
    NavigationCoords :=
  if isIndexOutOfBoundaries target.rowIndex 0 b.maxRow
      || isIndexOutOfBoundaries target.colIndex 0 b.maxCol then s
  else resolveAnchor target

/-- Modelled from the spec: `moveBy` computes `target = current + delta` and
then behaves as `moveTo`. -/
def moveBy (resolveAnchor : NavigationCoords → NavigationCoords)
    (s delta : NavigationCoords) (b : NavBounds) : NavigationCoords :=
  moveTo resolveAnchor s ⟨s.rowIndex + delta.rowIndex, s.colIndex + delta.colIndex⟩ b

/-- a navigation command of the command surface. -/
inductive NavCommand where
  | moveTo : NavigationCoords → NavCommand
  | moveBy : NavigationCoords → NavCommand

/-- One navigation command applied to the Navigation State. -/
def navStep (resolveAnchor : NavigationCoords → NavigationCoords) (b : NavBounds)
    (s : NavigationCoords) : NavCommand → NavigationCoords
  | .moveTo t => moveTo resolveAnchor s t b
  | .moveBy d => moveBy resolveAnchor s d b

/-- a sequence of navigation commands applied in order. -/
def navRun (resolveAnchor : NavigationCoords → NavigationCoords) (b : NavBounds)
    (s : NavigationCoords) (cmds : List NavCommand) : NavigationCoords :=
  cmds.foldl (navStep resolveAnchor b) s

/-- Membership of a coordinate in `[0, maxRow] x [0, maxCol]`. -/
def inBounds (c : NavigationCoords) (b : NavBounds) : Prop :=
  0 ≤ c.rowIndex ∧ c.rowIndex ≤ b.maxRow ∧ 0 ≤ c.colIndex ∧ c.colIndex ≤ b.maxCol

instance (c : NavigationCoords) (b : NavBounds) : Decidable (inBounds c b) := by
  unfold inBounds
  infer_instance

/-- Arguments of `stopEditing` in the props-driven variant
(useEditorManager.tsx), which also accepts a deferred `keyPress`. -/
structure PVStopParams where
  save : Option Bool
  keyPress : Option String

/-- Mutable cells of the props-driven hook, including the `scheduleMove`
React state driving the deferred key dispatch effect. -/
structure PVState where
  state : Option IEditorState
  editorRef : Option Value
  editorNode : Option EditorNode
  scheduleMove : Option String

/-- Observable trace entries of the props-driven variant: the `onCellChange`
callback, the synchronous completion of `stopEditing` (the point where
`state.current = null; setEditorNode(null)` has run, recording what key it
scheduled), and the deferred synthetic `keydown` dispatch. -/
inductive TraceEvent where
  | cellChange : NavigationCoords → Value → Value → TraceEvent
  | sessionCleared : Int → Int → Option String → TraceEvent
  | keydown : String → TraceEvent
deriving DecidableEq

/-- Recogniser for cell-change trace entries. -/
def isCellChangeTrace : TraceEvent → Bool
  | .cellChange _ _ _ => true
  | _ => false

/-- Truthiness of `params === undefined || params.save` for the props
variant. -/
def pvDoSave : Option PVStopParams → Bool
  | none => true
  | some p => p.save.getD false

/-- Truthiness of `params?.keyPress`: the key scheduled by `stopEditing`,
when present and non-empty. -/
def pvKeyOf : Option PVStopParams → Option String
  | none => none
  | some p =>
    match p.keyPress with
    | some k => if k = "" then none else some k
    | none => none

/-- Props-variant state after an early-return clearing branch (undefined
candidate or failing validator): `scheduleMove` is untouched. -/
def pvCleared (pv : PVState) : PVState := ⟨none, none, none, pv.scheduleMove⟩

/-- Props-variant state after the final clearing block followed by
`setScheduleMove` when a key press was requested. -/
def pvSched (pv : PVState) (sched : Option String) : PVState :=
  ⟨none, none, none,
    match sched with
    | some k => some k
    | none => pv.scheduleMove⟩

/-- `stopEditing` of the props-driven variant (useEditorManager.tsx): same
commit logic as the API variant but with no stop notification dispatch; the
undefined-candidate and invalid branches return before the `keyPress`
check, so only the fall-through paths schedule a deferred move. The result
carries the new state, the emitted trace and the scheduled key. -/
def propsStopEditing (pv : PVState) (params : Option PVStopParams) :
    PVState × List TraceEvent × Option String :=
  match pv.state with
  | none => (pv, [], none)
  | some st =>
    if pvDoSave params then
      let newValue := pv.editorRef.getD Value.undef
      if newValue = Value.undef then
        (pvCleared pv, [TraceEvent.sessionCleared st.rowIndex st.colIndex none], none)
      else if validatorPasses st.validatorHook newValue then
        let sched := pvKeyOf params
        let changes :=
          if jsLooseEq newValue st.initialValue then []
          else
            [TraceEvent.cellChange ⟨st.rowIndex, st.colIndex⟩ st.initialValue newValue]
        (pvSched pv sched,
          changes ++ [TraceEvent.sessionCleared st.rowIndex st.colIndex sched], sched)
      else
        (pvCleared pv, [TraceEvent.sessionCleared st.rowIndex st.colIndex none], none)
    else
      let sched := pvKeyOf params
      (pvSched pv sched,
        [TraceEvent.sessionCleared st.rowIndex st.colIndex sched], sched)

/-- the single-threaded event-loop state around the props-driven hook:
the hook state, the at-most-one armed `setTimeout` (re-arming supersedes
and cancels the previous timer, exactly as the effect cleanup runs
`clearTimeout` before a new timer is armed), and the observable trace. -/
structure LoopState where
  pv : PVState
  pending : Option String
  log : List TraceEvent

/-- Steps of the host event loop: mounting an editor session with its
candidate (abstracting `beginEditing` plus the editor `onRefMount`), a
`stopEditing` call, the armed timer firing, and component teardown (whose
effect cleanup cancels any pending timer). -/
inductive LoopCmd where
  | install : IEditorState → Option Value → LoopCmd
  | stop : Option PVStopParams → LoopCmd
  | fireTimer : LoopCmd
  | teardown : LoopCmd

/-- One run-to-completion step of the event loop. a `stop` command runs the
whole synchronous body of `stopEditing` and then re-arms the timer when a
key was scheduled; `fireTimer` dispatches the synthetic `keydown` and
clears `scheduleMove`; `teardown` runs the effect cleanup. -/
def loopStep (s : LoopState) : LoopCmd → LoopState
  | .install st cand =>
    { s with pv := { s.pv with state := some st, editorRef := cand } }
  | .stop p =>
    let r := propsStopEditing s.pv p
    { pv := r.1,
      pending :=
        match r.2.2 with
        | some k => some k
        | none => s.pending,
      log := s.log ++ r.2.1 }
  | .fireTimer =>
    match s.pending with
    | some k =>
      { pv := { s.pv with scheduleMove := none }, pending := none,
        log := s.log ++ [TraceEvent.keydown k] }
    | none => s
  | .teardown => { s with pending := none }

/-- a sequence of event-loop steps applied in order. -/
def loopRun (s : LoopState) : List LoopCmd → LoopState
  | [] => s
  | c :: cs => loopRun (loopStep s c) cs

/-- the initial mounted component: idle, nothing scheduled, empty trace. -/
def initLoop : LoopState := ⟨⟨none, none, none, none⟩, none, []⟩

/-- a plain text column with accessor "v", used to instantiate theorems on
concrete inputs. -/
def sampleHeader : Header :=
  ⟨"hv", "v", ColumnCellType.Text, ReadOnlyCfg.undef, none, none, none⟩

/-- a column lookup exposing three copies of the plain text column (the
3-column grid of the scenario). -/
def sampleGca : Int → Option Header :=
  fun i => if 0 ≤ i ∧ i < 3 then some sampleHeader else none

/-- five empty rows (the 5-row grid of the scenario); every accessor reads
`undefined`. -/
def sampleRows : List Row := List.replicate 5 (fun _ => Value.undef)

/-- a concrete text-editor session at the given coordinate with the given
initial value. -/
def mkSession (iv : Value) (r c : Int) : IEditorState :=
  ⟨EditorNode.textEditor ⟨0, iv, 500, none⟩, r, c, iv, 0, none, false⟩

/-- a concrete manager state holding that session and a candidate value. -/
def mkManager (iv : Value) (cand : Option Value) (r c : Int) : ManagerState :=
  ⟨some (mkSession iv r c), cand, some (mkSession iv r c).node⟩

/-- a row whose every accessor reads the number 0. -/
def zeroRow : Row := fun _ => Value.num 0

/-- Invariant of the event loop: an armed timer always originates from a
completed `stopEditing` already recorded in the trace. -/
def PendOk (s : LoopState) : Prop :=
  ∀ k, s.pending = some k →
    ∃ i r c, s.log.get? i = some (TraceEvent.sessionCleared r c (some k))

/-- Ordering invariant of the trace: every synthetic `keydown` is preceded
by the completion entry of the `stopEditing` call that scheduled it. -/
def PrecOk (s : LoopState) : Prop :=
  ∀ j k, s.log.get? j = some (TraceEvent.keydown k) →
    ∃ i, i < j ∧ ∃ r c,
      s.log.get? i = some (TraceEvent.sessionCleared r c (some k))

/-- the command list used to instantiate the event-loop theorem. -/
def c9Cmds : List LoopCmd :=
  [LoopCmd.install (mkSession (Value.str "x") 0 0) (some (Value.str "x")),
    LoopCmd.stop (some ⟨some false, some "ArrowDown"⟩),
    LoopCmd.fireTimer]

theorem get?_append_of_get? {α : Type} (l l2 : List α) (i : Nat) (x : α)
    (h : l.get? i = some x) : (l ++ l2).get? i = some x := by
  have hlt : i < l.length := by
    by_contra hge
    rw [List.get?_eq_none.mpr (Nat.le_of_not_lt hge)] at h
    exact Option.noConfusion h
  rw [List.get?_append hlt]
  exact h

theorem get?_append_add {α : Type} (l l2 : List α) (m : Nat) :
    (l ++ l2).get? (l.length + m) = l2.get? m := by
  rw [List.get?_append_right (Nat.le_add_right _ _)]
  congr 1
  omega

/-- C3: calling `beginEditing` at the coordinate of the already-active
session is a no-op: the session, the editor node and every other manager
field are unchanged and no notification is emitted. -/
theorem beginEditing_same_coordinate_noop
    (gca : Int → Option Header) (rows : List Row) (s : ManagerState)
    (st : IEditorState) (p : BeginEditingParams) (hst : s.state = some st)
    (hrow : st.rowIndex = p.coords.rowIndex)
    (hcol : st.colIndex = p.coords.colIndex) :
    apiBeginEditing gca rows s p = (s, []) := by
  unfold apiBeginEditing
  have hg : sameCoordsGuard s.state p.coords = true := by
    simp [sameCoordsGuard, hst, hrow, hcol]
  rw [if_pos hg]

theorem beginEditing_same_coordinate_noop_witness :
    apiBeginEditing sampleGca sampleRows (mkManager (Value.str "a") none 1 2)
      ⟨⟨1, 2⟩, 0, none⟩ = (mkManager (Value.str "a") none 1 2, []) :=
  beginEditing_same_coordinate_noop sampleGca sampleRows _ (mkSession (Value.str "a") 1 2)
    _ rfl rfl rfl

/-- C5: a `beginEditing` call whose column lookup fails, or whose column is
the row-selection sentinel, or is read-only for the coordinate, or whose
row lookup fails, rejects silently: no session, no notification, state
unchanged, and no exception since the embedding is a total function. -/
theorem beginEditing_guard_rejections
    (gca : Int → Option Header) (rows : List Row) (s : ManagerState)
    (p : BeginEditingParams)
    (h : gca p.coords.colIndex = none ∨
      ∃ column, gca p.coords.colIndex = some column ∧
        (column.id = ROW_SELECTION_HEADER_ID ∨
          resolveReadOnly column.readOnly p.coords = true ∨
          rowAt rows p.coords.rowIndex = none)) :
    apiBeginEditing gca rows s p = (s, []) := by
  unfold apiBeginEditing
  by_cases hg : sameCoordsGuard s.state p.coords = true
  · rw [if_pos hg]
  · rw [if_neg hg]
    rcases h with hnone | ⟨column, hcol, hrest⟩
    · rw [hnone]
    · rw [hcol]
      by_cases hid : column.id = ROW_SELECTION_HEADER_ID
      · simp [hid]
      · rcases hrest with hid2 | hro | hrow
        · exact absurd hid2 hid
        · simp [hid, hro]
        · by_cases hro2 : resolveReadOnly column.readOnly p.coords = true
          · simp [hid, hro2]
          · simp [hid, hro2, hrow]

theorem beginEditing_guard_rejections_witness :
    apiBeginEditing (fun _ => none) sampleRows clearedManager ⟨⟨0, 0⟩, 0, none⟩
      = (clearedManager, []) :=
  beginEditing_guard_rejections (fun _ => none) sampleRows clearedManager
    ⟨⟨0, 0⟩, 0, none⟩ (Or.inl rfl)

/-- C2: with an active session, `stopEditing(save=true)` on an undefined
candidate or a failing validator emits no cell-change event and clears the
manager to Idle; and every `stopEditing` exit path of an active session
dispatches the stop-editing notification with the session coordinate,
whatever the save outcome. -/
theorem stopEditing_discard_and_notification
    (s : ManagerState) (st : IEditorState) (hst : s.state = some st) :
    (∀ params,
      GridEvent.stopEditingNotif ⟨st.rowIndex, st.colIndex⟩
        ∈ (apiStopEditing s params).2) ∧
    ((s.editorRef.getD Value.undef = Value.undef ∨
        validatorPasses st.validatorHook (s.editorRef.getD Value.undef) = false) →
      (apiStopEditing s (some ⟨some true⟩)).1 = clearedManager ∧
      countCellChange (apiStopEditing s (some ⟨some true⟩)).2 = 0) := by
  constructor
  · intro params
    simp only [apiStopEditing, hst]
    by_cases hd : doSaveOf params = true
    · simp only [hd, if_true]
      by_cases hu : s.editorRef.getD Value.undef = Value.undef
      · simp [hu]
      · by_cases hv : validatorPasses st.validatorHook (s.editorRef.getD Value.undef) = true
        · by_cases hl : jsLooseEq (s.editorRef.getD Value.undef) st.initialValue = true
          · simp [hu, hv, hl]
          · simp [hu, hv, hl]
        · simp [hu, hv]
    · simp [hd]
  · intro hbad
    have hd : doSaveOf (some ⟨some true⟩) = true := rfl
    rcases hbad with hu | hv
    · simp [apiStopEditing, hst, hd, hu, countCellChange, isCellChange]
    · by_cases hu : s.editorRef.getD Value.undef = Value.undef
      · simp [apiStopEditing, hst, hd, hu, countCellChange, isCellChange]
      · simp [apiStopEditing, hst, hd, hu, hv, countCellChange, isCellChange]

theorem stopEditing_discard_and_notification_witness :
    GridEvent.stopEditingNotif ⟨(2 : Int), (1 : Int)⟩
        ∈ (apiStopEditing (mkManager (Value.str "a") none 2 1) none).2 ∧
    (apiStopEditing (mkManager (Value.str "a") none 2 1) (some ⟨some true⟩)).1
        = clearedManager ∧
    countCellChange
        (apiStopEditing (mkManager (Value.str "a") none 2 1) (some ⟨some true⟩)).2
      = 0 :=
  ⟨(stopEditing_discard_and_notification (mkManager (Value.str "a") none 2 1)
      (mkSession (Value.str "a") 2 1) rfl).1 none,
    ((stopEditing_discard_and_notification (mkManager (Value.str "a") none 2 1)
      (mkSession (Value.str "a") 2 1) rfl).2 (Or.inl rfl)).1,
    ((stopEditing_discard_and_notification (mkManager (Value.str "a") none 2 1)
      (mkSession (Value.str "a") 2 1) rfl).2 (Or.inl rfl)).2⟩

/-- C1 counterexample: an active session whose initial value is the empty
string, with the defined numeric candidate 0 that passes the (absent)
validator. The candidate differs from the initial value under strict
inequality, so the claim demands exactly one cell-change event, yet the
code emits none: the source compares with loose `!=` and `0 == ""` holds
in JavaScript. -/
theorem stopEditing_strict_inequality_counterexample :
    jsStrictEq (Value.num 0) (Value.str "") = false ∧
    Value.num 0 ≠ Value.undef ∧
    validatorPasses (mkSession (Value.str "") 0 0).validatorHook (Value.num 0) = true ∧
    (mkManager (Value.str "") (some (Value.num 0)) 0 0).state
      = some (mkSession (Value.str "") 0 0) ∧
    (mkManager (Value.str "") (some (Value.num 0)) 0 0).editorRef
      = some (Value.num 0) ∧
    countCellChange
        (apiStopEditing (mkManager (Value.str "") (some (Value.num 0)) 0 0)
          (some ⟨some true⟩)).2
      = 0 := by
  exact ⟨rfl, by decide, rfl, rfl, rfl, rfl⟩

/-- C1 amended: for every active session whose candidate is defined and
passes the validator, `stopEditing(save=true)` emits exactly one cell-change
event if and only if the candidate differs from the session initial value
under JavaScript loose inequality (`newValue != previousValue`), the event
carrying the initial value as `previousValue` and the candidate as
`newValue`; a loosely unchanged candidate emits no event. -/
theorem stopEditing_commit_loose_inequality
    (s : ManagerState) (st : IEditorState) (v : Value)
    (hst : s.state = some st) (href : s.editorRef = some v)
    (hv : v ≠ Value.undef) (hvalid : validatorPasses st.validatorHook v = true) :
    (countCellChange (apiStopEditing s (some ⟨some true⟩)).2
        = if jsLooseEq v st.initialValue then 0 else 1) ∧
    (apiStopEditing s (some ⟨some true⟩)).1 = clearedManager ∧
    (jsLooseEq v st.initialValue = false →
      (apiStopEditing s (some ⟨some true⟩)).2
        = [GridEvent.cellChange ⟨st.rowIndex, st.colIndex⟩ st.initialValue v,
            GridEvent.stopEditingNotif ⟨st.rowIndex, st.colIndex⟩]) := by
  have hd : doSaveOf (some ⟨some true⟩) = true := rfl
  have hgd : s.editorRef.getD Value.undef = v := by rw [href]; rfl
  by_cases hl : jsLooseEq v st.initialValue = true
  · refine ⟨?_, ?_, ?_⟩
    · simp [apiStopEditing, hst, hd, hgd, hv, hvalid, hl, countCellChange, isCellChange]
    · simp [apiStopEditing, hst, hd, hgd, hv, hvalid, hl]
    · intro hfalse
      rw [hl] at hfalse
      exact absurd hfalse (by decide)
  · refine ⟨?_, ?_, ?_⟩
    · simp [apiStopEditing, hst, hd, hgd, hv, hvalid, hl, countCellChange, isCellChange]
    · simp [apiStopEditing, hst, hd, hgd, hv, hvalid, hl]
    · intro _
      simp [apiStopEditing, hst, hd, hgd, hv, hvalid, hl]

theorem stopEditing_commit_loose_inequality_witness :
    Value.str "b" ≠ Value.undef ∧
    (countCellChange
        (apiStopEditing (mkManager (Value.str "a") (some (Value.str "b")) 3 1)
          (some ⟨some true⟩)).2
      = if jsLooseEq (Value.str "b") (Value.str "a") then 0 else 1) :=
  ⟨by decide,
    (stopEditing_commit_loose_inequality
      (mkManager (Value.str "a") (some (Value.str "b")) 3 1)
      (mkSession (Value.str "a") 3 1) (Value.str "b") rfl rfl (by decide) rfl).1⟩

theorem apiBeginEditing_success
    (gca : Int → Option Header) (rows : List Row) (s : ManagerState)
    (p : BeginEditingParams) (column : Header) (row : Row)
    (hg : sameCoordsGuard s.state p.coords = false)
    (hcol : gca p.coords.colIndex = some column)
    (hid : column.id ≠ ROW_SELECTION_HEADER_ID)
    (hro : resolveReadOnly column.readOnly p.coords = false)
    (hrw : rowAt rows p.coords.rowIndex = some row) :
    apiBeginEditing gca rows s p =
      ({ s with
          state := some
            ⟨getEditor row column
                (mkEditorProps p.targetElement
                  (bufferedValue (row column.accessor) p.defaultKey) column),
              p.coords.rowIndex, p.coords.colIndex,
              jsNullish (row column.accessor) (Value.str ""),
              p.targetElement, column.validatorHook,
              column.editor.isSome || decide (column.type = ColumnCellType.Calendar)⟩,
          editorNode := some (getEditor row column
            (mkEditorProps p.targetElement
              (bufferedValue (row column.accessor) p.defaultKey) column)) },
        [GridEvent.beginEditingNotif p.coords]) := by
  simp [apiBeginEditing, hg, hcol, hid, hro, hrw]

/-- C6: every session-creating `beginEditing` call selects the editor with
this precedence: the column-supplied factory result when present, else the
Calendar or Numeric component when the column type says so, else the Text
component, instantiated with the computed props. -/
theorem beginEditing_editor_selection
    (gca : Int → Option Header) (rows : List Row) (s : ManagerState)
    (p : BeginEditingParams) (column : Header) (row : Row)
    (hg : sameCoordsGuard s.state p.coords = false)
    (hcol : gca p.coords.colIndex = some column)
    (hid : column.id ≠ ROW_SELECTION_HEADER_ID)
    (hro : resolveReadOnly column.readOnly p.coords = false)
    (hrw : rowAt rows p.coords.rowIndex = some row) :
    ∃ st, (apiBeginEditing gca rows s p).1.state = some st ∧
      st.node =
        (match column.editor with
        | some factory => factory row
        | none =>
          match column.type with
          | ColumnCellType.Calendar =>
            EditorNode.calendarEditor
              (mkEditorProps p.targetElement
                (bufferedValue (row column.accessor) p.defaultKey) column)
          | ColumnCellType.Numeric =>
            EditorNode.numericEditor
              (mkEditorProps p.targetElement
                (bufferedValue (row column.accessor) p.defaultKey) column)
          | ColumnCellType.Text =>
            EditorNode.textEditor
              (mkEditorProps p.targetElement
                (bufferedValue (row column.accessor) p.defaultKey) column)) := by
  rw [apiBeginEditing_success gca rows s p column row hg hcol hid hro hrw]
  refine ⟨_, rfl, ?_⟩
  show getEditor row column _ = _
  unfold getEditor
  cases column.editor with
  | some factory => rfl
  | none => cases column.type <;> rfl

theorem beginEditing_editor_selection_witness :
    ∃ st,
      (apiBeginEditing sampleGca sampleRows clearedManager ⟨⟨2, 1⟩, 0, none⟩).1.state
        = some st ∧
      st.node =
        (match sampleHeader.editor with
        | some factory => factory (fun _ => Value.undef)
        | none =>
          match sampleHeader.type with
          | ColumnCellType.Calendar =>
            EditorNode.calendarEditor
              (mkEditorProps 0
                (bufferedValue ((fun _ => Value.undef) sampleHeader.accessor) none)
                sampleHeader)
          | ColumnCellType.Numeric =>
            EditorNode.numericEditor
              (mkEditorProps 0
                (bufferedValue ((fun _ => Value.undef) sampleHeader.accessor) none)
                sampleHeader)
          | ColumnCellType.Text =>
            EditorNode.textEditor
              (mkEditorProps 0
                (bufferedValue ((fun _ => Value.undef) sampleHeader.accessor) none)
                sampleHeader)) :=
  beginEditing_editor_selection sampleGca sampleRows clearedManager ⟨⟨2, 1⟩, 0, none⟩
    sampleHeader (fun _ => Value.undef) rfl rfl (by decide) rfl rfl

/-- C10: every session-creating `beginEditing` call builds the editor props
with `maxLength` equal to the column `maxLength` when defined and 500 when
absent, the stored editor node is instantiated from exactly these props,
and for a column without a custom factory the node carries them. -/
theorem beginEditing_maxLength_default
    (gca : Int → Option Header) (rows : List Row) (s : ManagerState)
    (p : BeginEditingParams) (column : Header) (row : Row)
    (hg : sameCoordsGuard s.state p.coords = false)
    (hcol : gca p.coords.colIndex = some column)
    (hid : column.id ≠ ROW_SELECTION_HEADER_ID)
    (hro : resolveReadOnly column.readOnly p.coords = false)
    (hrw : rowAt rows p.coords.rowIndex = some row) :
    ∃ st, (apiBeginEditing gca rows s p).1.state = some st ∧
      st.node = getEditor row column
        (mkEditorProps p.targetElement
          (bufferedValue (row column.accessor) p.defaultKey) column) ∧
      (mkEditorProps p.targetElement
          (bufferedValue (row column.accessor) p.defaultKey) column).maxLength
        = (match column.maxLength with
          | some m => m
          | none => 500) ∧
      (column.editor = none →
        editorNodeProps st.node
          = some (mkEditorProps p.targetElement
              (bufferedValue (row column.accessor) p.defaultKey) column)) := by
  rw [apiBeginEditing_success gca rows s p column row hg hcol hid hro hrw]
  refine ⟨_, rfl, rfl, ?_, ?_⟩
  · show (mkEditorProps _ _ _).maxLength = _
    unfold mkEditorProps
    cases column.maxLength <;> rfl
  · intro hnone
    show editorNodeProps (getEditor row column _) = _
    unfold getEditor
    rw [hnone]
    cases column.type <;> rfl

theorem beginEditing_maxLength_default_witness :
    ∃ st,
      (apiBeginEditing sampleGca sampleRows clearedManager ⟨⟨0, 0⟩, 0, none⟩).1.state
        = some st ∧
      st.node = getEditor (fun _ => Value.undef) sampleHeader
        (mkEditorProps 0
          (bufferedValue ((fun _ => Value.undef) sampleHeader.accessor) none)
          sampleHeader) ∧
      (mkEditorProps 0
          (bufferedValue ((fun _ => Value.undef) sampleHeader.accessor) none)
          sampleHeader).maxLength
        = (match sampleHeader.maxLength with
          | some m => m
          | none => 500) ∧
      (sampleHeader.editor = none →
        editorNodeProps st.node
          = some (mkEditorProps 0
              (bufferedValue ((fun _ => Value.undef) sampleHeader.accessor) none)
              sampleHeader)) :=
  beginEditing_maxLength_default sampleGca sampleRows clearedManager ⟨⟨0, 0⟩, 0, none⟩
    sampleHeader (fun _ => Value.undef) rfl rfl (by decide) rfl rfl

/-- C4 counterexample: on a cell whose current value is the number 0 — a
defined, existing current value — with defaultKey "9", the claim predicts
the buffered value "09" (current value concatenated with the key), but the
source tests truthiness, 0 is falsy, and the buffered value is "9" (the
key alone). -/
theorem bufferedValue_exists_counterexample :
    zeroRow "v" = Value.num 0 ∧
    sessionBufferedValue
        (apiBeginEditing sampleGca [zeroRow] clearedManager ⟨⟨0, 0⟩, 0, some "9"⟩).1
      = some (Value.str "9") ∧
    Value.str "9" ≠ Value.str ((Value.num 0).jsToString ++ "9") := by
  refine ⟨rfl, ?_, by decide⟩
  rfl

/-- C4 amended: for every session-creating `beginEditing` call the buffered
value handed to the editor props is the current cell value concatenated
with defaultKey when a non-empty defaultKey is supplied and the current
value is truthy; defaultKey alone when a non-empty defaultKey is supplied
and the current value is falsy (undefined, empty string or zero); otherwise
the current value when truthy, or the empty string. In the scenario of the
spec (5 by 3 grid, no merges, empty cell at (2,1), defaultKey "9",
candidate read back as "9x", then stopEditing(save=true)) the emitted
event is coords (2,1), previousValue "", newValue "9x". -/
theorem beginEditing_buffered_value_truthy
    (gca : Int → Option Header) (rows : List Row) (s : ManagerState)
    (p : BeginEditingParams) (column : Header) (row : Row)
    (hg : sameCoordsGuard s.state p.coords = false)
    (hcol : gca p.coords.colIndex = some column)
    (hid : column.id ≠ ROW_SELECTION_HEADER_ID)
    (hro : resolveReadOnly column.readOnly p.coords = false)
    (hrw : rowAt rows p.coords.rowIndex = some row) :
    (∃ st, (apiBeginEditing gca rows s p).1.state = some st ∧
      st.node = getEditor row column
        (mkEditorProps p.targetElement
          (bufferedValue (row column.accessor) p.defaultKey) column) ∧
      bufferedValue (row column.accessor) p.defaultKey
        = (if (row column.accessor).jsTruthy then
            if defaultKeyTruthy p.defaultKey then
              Value.str ((row column.accessor).jsToString ++ p.defaultKey.getD "")
            else row column.accessor
          else
            if defaultKeyTruthy p.defaultKey then Value.str (p.defaultKey.getD "")
            else Value.str "")) ∧
    ((apiBeginEditing sampleGca sampleRows clearedManager ⟨⟨2, 1⟩, 0, some "9"⟩).2
        = [GridEvent.beginEditingNotif ⟨2, 1⟩] ∧
      (apiStopEditing
          { (apiBeginEditing sampleGca sampleRows clearedManager
              ⟨⟨2, 1⟩, 0, some "9"⟩).1 with
              editorRef := some (Value.str "9x") }
          (some ⟨some true⟩)).2
        = [GridEvent.cellChange ⟨2, 1⟩ (Value.str "") (Value.str "9x"),
            GridEvent.stopEditingNotif ⟨2, 1⟩]) := by
  refine ⟨?_, rfl, rfl⟩
  rw [apiBeginEditing_success gca rows s p column row hg hcol hid hro hrw]
  exact ⟨_, rfl, rfl, rfl⟩

theorem beginEditing_buffered_value_truthy_witness :
    (∃ st,
      (apiBeginEditing sampleGca sampleRows clearedManager ⟨⟨2, 1⟩, 0, some "9"⟩).1.state
        = some st ∧
      st.node = getEditor (fun _ => Value.undef) sampleHeader
        (mkEditorProps 0
          (bufferedValue ((fun _ => Value.undef) sampleHeader.accessor) (some "9"))
          sampleHeader) ∧
      bufferedValue ((fun _ => Value.undef) sampleHeader.accessor) (some "9")
        = (if ((fun _ => Value.undef) sampleHeader.accessor : Value).jsTruthy then
            if defaultKeyTruthy (some "9") then
              Value.str
                (((fun _ => Value.undef) sampleHeader.accessor : Value).jsToString
                  ++ (some "9").getD "")
            else (fun _ => Value.undef) sampleHeader.accessor
          else
            if defaultKeyTruthy (some "9") then Value.str ((some "9").getD "")
            else Value.str "")) ∧
    ((apiBeginEditing sampleGca sampleRows clearedManager ⟨⟨2, 1⟩, 0, some "9"⟩).2
        = [GridEvent.beginEditingNotif ⟨2, 1⟩] ∧
      (apiStopEditing
          { (apiBeginEditing sampleGca sampleRows clearedManager
              ⟨⟨2, 1⟩, 0, some "9"⟩).1 with
              editorRef := some (Value.str "9x") }
          (some ⟨some true⟩)).2
        = [GridEvent.cellChange ⟨2, 1⟩ (Value.str "") (Value.str "9x"),
            GridEvent.stopEditingNotif ⟨2, 1⟩]) :=
  beginEditing_buffered_value_truthy sampleGca sampleRows clearedManager
    ⟨⟨2, 1⟩, 0, some "9"⟩ sampleHeader (fun _ => Value.undef) rfl rfl (by decide) rfl rfl

/-- C7: with an active session, when the row set or column lookup no longer
resolves the session row or column, or the column accessor reads undefined
on the row, the reconciler forces `stopEditing({save:false})`: the session
is cleared and no cell-change event is emitted; when the accessor reads a
defined value the session is kept and nothing is emitted. -/
theorem reconciler_invalidates_stale_session
    (gca : Int → Option Header) (rows : List Row) (s : ManagerState)
    (st : IEditorState) (n : EditorNode)
    (hnode : s.editorNode = some n) (hst : s.state = some st) :
    ((rowAt rows st.rowIndex = none ∨ gca st.colIndex = none ∨
        (∃ target column, rowAt rows st.rowIndex = some target ∧
          gca st.colIndex = some column ∧ target column.accessor = Value.undef)) →
      (reconcileEffect gca rows s).1.state = none ∧
      countCellChange (reconcileEffect gca rows s).2 = 0) ∧
    (∀ target column, rowAt rows st.rowIndex = some target →
      gca st.colIndex = some column → target column.accessor ≠ Value.undef →
      reconcileEffect gca rows s = (s, [])) := by
  have hstop : apiStopEditing s (some ⟨some false⟩)
      = (clearedManager, [GridEvent.stopEditingNotif ⟨st.rowIndex, st.colIndex⟩]) := by
    simp [apiStopEditing, hst, doSaveOf]
  constructor
  · intro hbad
    rcases hbad with hr | hc | ⟨target, column, htr, hcl, hundef⟩
    · simp [reconcileEffect, hnode, hst, hr, hstop, countCellChange, isCellChange,
        clearedManager]
    · cases htr : rowAt rows st.rowIndex with
      | none =>
        simp [reconcileEffect, hnode, hst, htr, hstop, countCellChange, isCellChange,
          clearedManager]
      | some target =>
        simp [reconcileEffect, hnode, hst, htr, hc, hstop, countCellChange, isCellChange,
          clearedManager]
    · simp [reconcileEffect, hnode, hst, htr, hcl, hundef, hstop, countCellChange,
        isCellChange, clearedManager]
  · intro target column htr hcl hne
    simp [reconcileEffect, hnode, hst, htr, hcl, hne]

theorem reconciler_invalidates_stale_session_witness :
    (reconcileEffect sampleGca [] (mkManager (Value.str "a") none 0 0)).1.state = none ∧
    countCellChange (reconcileEffect sampleGca [] (mkManager (Value.str "a") none 0 0)).2
      = 0 :=
  (reconciler_invalidates_stale_session sampleGca [] (mkManager (Value.str "a") none 0 0)
      (mkSession (Value.str "a") 0 0) (mkSession (Value.str "a") 0 0).node rfl rfl).1
    (Or.inl rfl)

theorem navStep_inBounds (resolveAnchor : NavigationCoords → NavigationCoords)
    (b : NavBounds) (hres : ∀ c, inBounds c b → inBounds (resolveAnchor c) b)
    (s : NavigationCoords) (hs : inBounds s b) (c : NavCommand) :
    inBounds (navStep resolveAnchor b s c) b := by
  have key : ∀ t : NavigationCoords, inBounds (moveTo resolveAnchor s t b) b := by
    intro t
    unfold moveTo
    by_cases h1 : (isIndexOutOfBoundaries t.rowIndex 0 b.maxRow
        || isIndexOutOfBoundaries t.colIndex 0 b.maxCol) = true
    · rw [if_pos h1]
      exact hs
    · rw [if_neg h1]
      apply hres
      unfold isIndexOutOfBoundaries at h1
      simp only [Bool.or_eq_true, decide_eq_true_eq, not_or] at h1
      unfold inBounds
      omega
  cases c with
  | moveTo t => exact key t
  | moveBy d => exact key _

/-- C8: from any in-bounds start, no sequence of moveTo and moveBy commands
leaves the Navigation State outside [0, maxRow] x [0, maxCol], provided the
merge resolver maps in-bounds coordinates to in-bounds anchors; any target
failing the source bounds test is rejected with the state unchanged; and
the source test holds exactly when the index is below the minimum or above
the maximum. -/
theorem navigation_never_leaves_bounds
    (resolveAnchor : NavigationCoords → NavigationCoords) (b : NavBounds)
    (hres : ∀ c, inBounds c b → inBounds (resolveAnchor c) b)
    (start : NavigationCoords) (hstart : inBounds start b)
    (cmds : List NavCommand) :
    inBounds (navRun resolveAnchor b start cmds) b ∧
    (∀ s t, (isIndexOutOfBoundaries t.rowIndex 0 b.maxRow
        || isIndexOutOfBoundaries t.colIndex 0 b.maxCol) = true →
      moveTo resolveAnchor s t b = s) ∧
    (∀ i lo hi, isIndexOutOfBoundaries i lo hi = true ↔ (i < lo ∨ i > hi)) := by
  refine ⟨?_, ?_, ?_⟩
  · induction cmds generalizing start with
    | nil => exact hstart
    | cons c cs ih =>
      show inBounds (navRun resolveAnchor b (navStep resolveAnchor b start c) cs) b
      exact ih _ (navStep_inBounds resolveAnchor b hres start hstart c)
  · intro s t h
    unfold moveTo
    rw [if_pos h]
  · intro i lo hi
    unfold isIndexOutOfBoundaries
    simp

theorem navigation_never_leaves_bounds_witness :
    inBounds
        (navRun id ⟨4, 2⟩ ⟨0, 0⟩
          [NavCommand.moveTo ⟨2, 1⟩, NavCommand.moveBy ⟨10, 0⟩,
            NavCommand.moveTo ⟨-1, 0⟩, NavCommand.moveBy ⟨1, 1⟩])
        ⟨4, 2⟩ :=
  (navigation_never_leaves_bounds id ⟨4, 2⟩ (fun _ h => h) ⟨0, 0⟩ (by decide)
    [NavCommand.moveTo ⟨2, 1⟩, NavCommand.moveBy ⟨10, 0⟩,
      NavCommand.moveTo ⟨-1, 0⟩, NavCommand.moveBy ⟨1, 1⟩]).1

theorem propsStop_no_keydown (pv : PVState) (p : Option PVStopParams) (k : String) :
    TraceEvent.keydown k ∉ (propsStopEditing pv p).2.1 := by
  cases hpv : pv.state with
  | none => simp [propsStopEditing, hpv]
  | some st =>
    by_cases hd : pvDoSave p = true
    · by_cases hu : pv.editorRef.getD Value.undef = Value.undef
      · simp [propsStopEditing, hpv, hd, hu]
      · by_cases hv : validatorPasses st.validatorHook (pv.editorRef.getD Value.undef) = true
        · by_cases hl : jsLooseEq (pv.editorRef.getD Value.undef) st.initialValue = true
          · simp [propsStopEditing, hpv, hd, hu, hv, hl]
          · simp [propsStopEditing, hpv, hd, hu, hv, hl]
        · simp [propsStopEditing, hpv, hd, hu, hv]
    · simp [propsStopEditing, hpv, hd]

theorem propsStop_sched_marker (pv : PVState) (p : Option PVStopParams) (k : String)
    (h : (propsStopEditing pv p).2.2 = some k) :
    ∃ r c, TraceEvent.sessionCleared r c (some k) ∈ (propsStopEditing pv p).2.1 := by
  cases hpv : pv.state with
  | none => simp [propsStopEditing, hpv] at h
  | some st =>
    by_cases hd : pvDoSave p = true
    · by_cases hu : pv.editorRef.getD Value.undef = Value.undef
      · simp [propsStopEditing, hpv, hd, hu] at h
      · by_cases hv : validatorPasses st.validatorHook (pv.editorRef.getD Value.undef) = true
        · have hkey : pvKeyOf p = some k := by
            simpa [propsStopEditing, hpv, hd, hu, hv] using h
          refine ⟨st.rowIndex, st.colIndex, ?_⟩
          simp [propsStopEditing, hpv, hd, hu, hv, hkey]
        · simp [propsStopEditing, hpv, hd, hu, hv] at h
    · have hkey : pvKeyOf p = some k := by
        simpa [propsStopEditing, hpv, hd] using h
      refine ⟨st.rowIndex, st.colIndex, ?_⟩
      simp [propsStopEditing, hpv, hd, hkey]

theorem propsStop_batch (pv : PVState) (p : Option PVStopParams) (st : IEditorState)
    (hpv : pv.state = some st) :
    ∃ l, (propsStopEditing pv p).2.1
        = l ++ [TraceEvent.sessionCleared st.rowIndex st.colIndex
            (propsStopEditing pv p).2.2] ∧
      ∀ e ∈ l, isCellChangeTrace e = true := by
  by_cases hd : pvDoSave p = true
  · by_cases hu : pv.editorRef.getD Value.undef = Value.undef
    · exact ⟨[], by simp [propsStopEditing, hpv, hd, hu], by simp⟩
    · by_cases hv : validatorPasses st.validatorHook (pv.editorRef.getD Value.undef) = true
      · by_cases hl : jsLooseEq (pv.editorRef.getD Value.undef) st.initialValue = true
        · exact ⟨[], by simp [propsStopEditing, hpv, hd, hu, hv, hl], by simp⟩
        · refine ⟨[TraceEvent.cellChange ⟨st.rowIndex, st.colIndex⟩ st.initialValue
            (pv.editorRef.getD Value.undef)], ?_, ?_⟩
          · simp [propsStopEditing, hpv, hd, hu, hv, hl]
          · simp [isCellChangeTrace]
      · exact ⟨[], by simp [propsStopEditing, hpv, hd, hu, hv], by simp⟩
  · exact ⟨[], by simp [propsStopEditing, hpv, hd], by simp⟩

theorem loopStep_preserves (s : LoopState) (c : LoopCmd)
    (hp : PendOk s) (hq : PrecOk s) :
    PendOk (loopStep s c) ∧ PrecOk (loopStep s c) := by
  cases c with
  | install st cand => exact ⟨hp, hq⟩
  | teardown =>
    refine ⟨?_, hq⟩
    intro k hk
    exact Option.noConfusion hk
  | fireTimer =>
    cases hpend : s.pending with
    | none =>
      have hid : loopStep s LoopCmd.fireTimer = s := by
        simp [loopStep, hpend]
      rw [hid]
      exact ⟨hp, hq⟩
    | some k0 =>
      have hstep : loopStep s LoopCmd.fireTimer =
          { pv := { s.pv with scheduleMove := none }, pending := none,
            log := s.log ++ [TraceEvent.keydown k0] } := by
        simp [loopStep, hpend]
      rw [hstep]
      constructor
      · intro k hk
        exact Option.noConfusion hk
      · intro j k hj
        have hj1 : (s.log ++ [TraceEvent.keydown k0]).get? j
            = some (TraceEvent.keydown k) := hj
        by_cases hlt : j < s.log.length
        · rw [List.get?_append hlt] at hj1
          obtain ⟨i, hij, r, cc, hm⟩ := hq j k hj1
          exact ⟨i, hij, r, cc, get?_append_of_get? _ _ _ _ hm⟩
        · have hj2 : [TraceEvent.keydown k0].get? (j - s.log.length)
              = some (TraceEvent.keydown k) := by
            rw [← List.get?_append_right (Nat.le_of_not_lt hlt)]
            exact hj1
          have hk0 : k = k0 := by
            cases hdlt : j - s.log.length with
            | zero =>
              rw [hdlt] at hj2
              simp at hj2
              exact hj2.symm
            | succ m =>
              rw [hdlt] at hj2
              simp at hj2
          obtain ⟨i, r, cc, hm⟩ := hp k0 hpend
          have hilt : i < s.log.length := by
            by_contra hh
            rw [List.get?_eq_none.mpr (Nat.le_of_not_lt hh)] at hm
            exact Option.noConfusion hm
          refine ⟨i, by omega, r, cc, ?_⟩
          rw [hk0]
          exact get?_append_of_get? _ _ _ _ hm
  | stop p =>
    constructor
    · intro k hk
      have hk1 : (match (propsStopEditing s.pv p).2.2 with
          | some k2 => some k2
          | none => s.pending) = some k := hk
      cases hsched : (propsStopEditing s.pv p).2.2 with
      | some k1 =>
        rw [hsched] at hk1
        have hkk : k1 = k := by
          simpa using hk1
        subst hkk
        obtain ⟨r, cc, hmem⟩ := propsStop_sched_marker s.pv p k1 hsched
        obtain ⟨n, hn⟩ := List.mem_iff_get?.mp hmem
        refine ⟨s.log.length + n, r, cc, ?_⟩
        have : (s.log ++ (propsStopEditing s.pv p).2.1).get? (s.log.length + n)
            = some (TraceEvent.sessionCleared r cc (some k1)) := by
          rw [get?_append_add]
          exact hn
        exact this
      | none =>
        rw [hsched] at hk1
        obtain ⟨i, r, cc, hm⟩ := hp k hk1
        exact ⟨i, r, cc, get?_append_of_get? _ _ _ _ hm⟩
    · intro j k hj
      have hj1 : (s.log ++ (propsStopEditing s.pv p).2.1).get? j
          = some (TraceEvent.keydown k) := hj
      by_cases hlt : j < s.log.length
      · rw [List.get?_append hlt] at hj1
        obtain ⟨i, hij, r, cc, hm⟩ := hq j k hj1
        exact ⟨i, hij, r, cc, get?_append_of_get? _ _ _ _ hm⟩
      · exfalso
        have hj2 : ((propsStopEditing s.pv p).2.1).get? (j - s.log.length)
            = some (TraceEvent.keydown k) := by
          rw [← List.get?_append_right (Nat.le_of_not_lt hlt)]
          exact hj1
        exact propsStop_no_keydown s.pv p k (List.get?_mem hj2)

theorem loopRun_preserves (cmds : List LoopCmd) (s : LoopState)
    (hp : PendOk s) (hq : PrecOk s) :
    PendOk (loopRun s cmds) ∧ PrecOk (loopRun s cmds) := by
  induction cmds generalizing s with
  | nil => exact ⟨hp, hq⟩
  | cons c cs ih =>
    show PendOk (loopRun (loopStep s c) cs) ∧ PrecOk (loopRun (loopStep s c) cs)
    obtain ⟨hp2, hq2⟩ := loopStep_preserves s c hp hq
    exact ih _ hp2 hq2

/-- C9: in the event-loop semantics of the props-driven hook, every deferred
synthetic keydown in the trace is strictly preceded by the completion entry
of the `stopEditing` call that scheduled it, and the emission batch of a
`stopEditing` is its cell-change events followed by that completion entry,
so a `stopEditing` always fully completes, change event included, before
its deferred navigation command executes; moreover nothing fires after
teardown has cancelled the pending command, and a superseding `stopEditing`
replaces the pending command so that only the newer key fires. -/
theorem stopEditing_deferred_ordering :
    (∀ cmds j k,
      (loopRun initLoop cmds).log.get? j = some (TraceEvent.keydown k) →
      ∃ i, i < j ∧ ∃ r c, (loopRun initLoop cmds).log.get? i
        = some (TraceEvent.sessionCleared r c (some k))) ∧
    (∀ pv p st, pv.state = some st →
      ∃ l, (propsStopEditing pv p).2.1
          = l ++ [TraceEvent.sessionCleared st.rowIndex st.colIndex
              (propsStopEditing pv p).2.2] ∧
        ∀ e ∈ l, isCellChangeTrace e = true) ∧
    (∀ s : LoopState,
      (loopStep (loopStep s LoopCmd.teardown) LoopCmd.fireTimer).log = s.log) ∧
    (∀ (s : LoopState) (p : Option PVStopParams) (k : String),
      (propsStopEditing s.pv p).2.2 = some k →
      (loopStep (loopStep s (LoopCmd.stop p)) LoopCmd.fireTimer).log
        = s.log ++ (propsStopEditing s.pv p).2.1 ++ [TraceEvent.keydown k]) := by
  refine ⟨?_, ?_, ?_, ?_⟩
  · intro cmds j k hj
    have hinit : PendOk initLoop := by
      intro k2 hk2
      exact Option.noConfusion hk2
    have hinit2 : PrecOk initLoop := by
      intro j2 k2 hj2
      exact Option.noConfusion hj2
    exact (loopRun_preserves cmds initLoop hinit hinit2).2 j k hj
  · intro pv p st hpv
    exact propsStop_batch pv p st hpv
  · intro s
    rfl
  · intro s p k hsched
    have h1 : loopStep s (LoopCmd.stop p) =
        { pv := (propsStopEditing s.pv p).1, pending := some k,
          log := s.log ++ (propsStopEditing s.pv p).2.1 } := by
      simp [loopStep, hsched]
    rw [h1]
    show (s.log ++ (propsStopEditing s.pv p).2.1) ++ [TraceEvent.keydown k]
      = s.log ++ (propsStopEditing s.pv p).2.1 ++ [TraceEvent.keydown k]
    simp [List.append_assoc]

theorem stopEditing_deferred_ordering_witness :
    (loopRun initLoop c9Cmds).log.get? 1 = some (TraceEvent.keydown "ArrowDown") ∧
    ∃ i, i < 1 ∧ ∃ r c, (loopRun initLoop c9Cmds).log.get? i
      = some (TraceEvent.sessionCleared r c (some "ArrowDown")) :=
  ⟨rfl, stopEditing_deferred_ordering.1 c9Cmds 1 "ArrowDown" rfl⟩
